import Mathlib

/-
Verification development for the semantic retrieval engine of the rag-project
repository: text chunker, FAISS-backed similarity index, context aggregator
and retrieval evaluator.

The Python sources are shallowly embedded: text is modelled as `List Char`
(Python `str`), float values as `ℚ`, fallible operations either return
`Except Err _` (read-only operations) or a pair `State × Option Err`
(mutating methods, whose partial mutations survive a raised exception).
External collaborators (the FAISS library, the embedding model, `datetime`)
appear as explicitly modelled functions or parameters.
-/

set_option maxRecDepth 10000

namespace Rag

/-- Equality of `Except` values is decidable when it is on both components
(used to evaluate the models on concrete inputs). -/
instance {ε α : Type} [DecidableEq ε] [DecidableEq α] : DecidableEq (Except ε α) := fun a b =>
  match a, b with
  | .ok x, .ok y =>
      if h : x = y then .isTrue (by rw [h])
      else .isFalse (fun c => h (Except.ok.inj c))
  | .error e, .error f =>
      if h : e = f then .isTrue (by rw [h])
      else .isFalse (fun c => h (Except.error.inj c))
  | .ok _, .error _ => .isFalse (fun c => Except.noConfusion c)
  | .error _, .ok _ => .isFalse (fun c => Except.noConfusion c)

/-- Python strings, modelled positionally as lists of characters. -/
abbrev Str := List Char

/-- Embedding vectors (`list[float]`), modelled over `ℚ`. -/
abbrev Vec := List ℚ

/-- Error kinds of `app/core/exceptions.py`. The structured `details` payload
is elided; the message string is kept. `zeroDivisionError` stands for
Python's built-in `ZeroDivisionError`, which is not one of the documented
application error kinds. -/
inductive Err where
  | vectorStoreError (msg : String)
  | chunkingError (msg : String)
  | insufficientResultsError (msg : String)
  | zeroDivisionError
deriving DecidableEq

/-- `FileType` enum of `app/core/constants.py`. -/
inductive FileType where
  | txt
  | md
  | pdf
deriving DecidableEq

/-- `RelevanceLevel` enum of `app/core/constants.py`. -/
inductive RelevanceLevel where
  | high
  | medium
  | low
deriving DecidableEq

/-- `ChunkMetadata` of `app/models/domain.py`. `created_at` is an abstract
timestamp (the `datetime.now()` value supplied by the environment). -/
structure ChunkMetadata where
  source : String
  chunk_index : ℕ
  total_chunks : ℕ
  file_type : FileType
  created_at : ℕ
  char_count : ℕ
  start_char : ℕ
  end_char : ℕ
deriving DecidableEq

/-- `Chunk` of `app/models/domain.py`. The pydantic constraint
`text: min_length=1` is enforced at each construction site. -/
structure Chunk where
  id : String
  text : Str
  embedding : Option Vec
  metadata : ChunkMetadata
deriving DecidableEq

/-- `SearchResult` of `app/models/domain.py`. The pydantic constraint
`score ∈ [0, 1]` is enforced at the construction site inside search. -/
structure SearchResult where
  chunk : Chunk
  score : ℚ
  relevance : RelevanceLevel
deriving DecidableEq

/-- The configuration fields of `app/core/config.py` consumed by the core. -/
structure Settings where
  embedding_dimension : ℕ
  normalize_embeddings : Bool
  chunk_size : ℕ
  chunk_overlap : ℕ
  min_similarity_score : ℚ
  max_context_length : ℕ
deriving DecidableEq

/-- The default values declared in `app/core/config.py`
(dimension 384, normalization on, chunk size 300, overlap 50,
minimum similarity 0.65, maximum context length 2000). -/
def defaultSettings : Settings :=
  { embedding_dimension := 384
    normalize_embeddings := true
    chunk_size := 300
    chunk_overlap := 50
    min_similarity_score := 13/20
    max_context_length := 2000 }

/-- Python `x or d` applied to an optional integer argument: both `None`
and `0` are falsy and are replaced by the default. -/
def pyOrNat (x : Option ℕ) (d : ℕ) : ℕ :=
  match x with
  | none => d
  | some n => if n = 0 then d else n

/-- Python `x or d` applied to an optional float argument: both `None`
and `0.0` are falsy and are replaced by the default. -/
def pyOrRat (x : Option ℚ) (d : ℚ) : ℚ :=
  match x with
  | none => d
  | some q => if q = 0 then d else q

/-! ## Chunker (`app/services/chunker.py`) -/

/-- Characters stripped by Python `str.strip()` (whitespace). -/
def pySpace (c : Char) : Bool :=
  c == ' ' || c == '\t' || c == '\n' || c == '\r' || c == '\x0b' || c == '\x0c'

/-- Python `str.strip()`. -/
def pyStrip (l : Str) : Str :=
  ((l.dropWhile pySpace).reverse.dropWhile pySpace).reverse

/-- Python `text.split("\n\n")` (`SEPARATOR_TOKEN` of constants.py):
splits at each non-overlapping occurrence of the two-character separator,
scanning left to right; `acc` is the current piece, reversed. -/
def splitParas : Str → Str → List Str
  | [], acc => [acc.reverse]
  | '\n' :: '\n' :: rest, acc => acc.reverse :: splitParas rest []
  | c :: rest, acc => splitParas rest (c :: acc)

/-- Python `s[-k:]`: the last `k` characters. For `k = 0` the slice
`s[-0:] = s[0:]` is the whole string. -/
def pyLastChars (l : Str) (k : ℕ) : Str :=
  if k = 0 then l else l.drop (l.length - k)

/-- The start offsets produced by Python `range(0, len, step)` for
`step > 0`: the multiples of `step` below `len`. -/
def hardSliceStarts (len step : ℕ) : List ℕ :=
  (List.range ((len + step - 1) / step)).map (· * step)

/-- The hard-split branch of `_smart_chunk_by_chars`: slices
`para[i : i + chunk_size]` for `i in range(0, len(para), chunk_size - overlap)`.
Reachable only with `overlap < chunk_size` (the caller validates this),
so the stride is positive. -/
def hardSlices (para : Str) (chunk_size overlap : ℕ) : List Str :=
  (hardSliceStarts para.length (chunk_size - overlap)).map
    (fun i => (para.drop i).take chunk_size)

/-- The paragraph separator `"\n\n"` inserted between accumulated paragraphs. -/
def nl2 : Str := ['\n', '\n']

/-- The paragraph-accumulation loop of `_smart_chunk_by_chars`:
`current` is the running buffer (`current_chunk`), `chunks` the emitted
chunks so far, in order. Sizes are in characters. -/
def smartChunkLoop (chunk_size overlap : ℕ) :
    List Str → Str → List Str → List Str
  | [], current, chunks =>
      if current ≠ [] then chunks ++ [current] else chunks
  | p :: rest, current, chunks =>
      let para := pyStrip p
      if para = [] then
        smartChunkLoop chunk_size overlap rest current chunks
      else if chunk_size < current.length + para.length + 2 then
        if current ≠ [] then
          smartChunkLoop chunk_size overlap rest
            (pyLastChars current overlap ++ nl2 ++ para) (chunks ++ [current])
        else
          if chunk_size < para.length then
            smartChunkLoop chunk_size overlap rest [] (chunks ++ hardSlices para chunk_size overlap)
          else
            smartChunkLoop chunk_size overlap rest para chunks
      else
        smartChunkLoop chunk_size overlap rest
          (if current ≠ [] then current ++ nl2 ++ para else para) chunks

/-- `ChunkerService._smart_chunk_by_chars(text, chunk_size, overlap)`,
sizes in characters. -/
def smart_chunk_by_chars (text : Str) (chunk_size overlap : ℕ) : List Str :=
  let paragraphs := splitParas text []
  if text.length ≤ chunk_size then [text]
  else smartChunkLoop chunk_size overlap paragraphs [] []

/-- The chunk-object construction loop of `ChunkerService.chunk_text`:
`idx` is the enumeration index, `pos` the running character cursor
(`current_pos`), `n` the total number of raw chunks. Constructing a
`Chunk` whose stripped text is empty violates the pydantic constraint
`min_length=1`; the surrounding `try` turns that into a `ChunkingError`. -/
def buildChunkObjects (now : ℕ) (source : String) (ft : FileType) (n : ℕ) :
    ℕ → ℕ → List Str → Except Err (List Chunk)
  | _, _, [] => .ok []
  | idx, pos, t :: ts => do
      let char_count := t.length
      let stripped := pyStrip t
      if stripped = [] then
        .error (.chunkingError ("Échec du découpage de " ++ source))
      else
        let meta : ChunkMetadata :=
          { source := source
            chunk_index := idx
            total_chunks := n
            file_type := ft
            created_at := now
            char_count := char_count
            start_char := pos
            end_char := pos + char_count }
        let c : Chunk :=
          { id := source ++ "_chunk_" ++ toString idx
            text := stripped
            embedding := none
            metadata := meta }
        let rest ← buildChunkObjects now source ft n (idx + 1) (pos + char_count) ts
        .ok (c :: rest)

/-- `ChunkerService.chunk_text(text, source, file_type, chunk_size, overlap)`.
A falsy (`None` or `0`) size argument is replaced by the configured default
before the `overlap >= chunk_size` validation. Token sizes are converted to
characters with the fixed 1 token = 4 characters approximation. -/
def chunk_text (st : Settings) (now : ℕ) (text : Str) (source : String)
    (ft : FileType) (chunk_size? : Option ℕ) (overlap? : Option ℕ) :
    Except Err (List Chunk) :=
  if text = [] ∨ pyStrip text = [] then
    .error (.chunkingError "Le texte ne peut pas être vide")
  else
    let chunk_size := pyOrNat chunk_size? st.chunk_size
    let overlap := pyOrNat overlap? st.chunk_overlap
    if chunk_size ≤ overlap then
      .error (.chunkingError "L\x27overlap doit être inférieur à la taille du chunk")
    else
      let char_chunk_size := chunk_size * 4
      let char_overlap := overlap * 4
      let chunks := smart_chunk_by_chars text char_chunk_size char_overlap
      buildChunkObjects now source ft chunks.length 0 0 chunks

/-! ## Similarity index (`app/services/vectorstore.py`)

Mutable service state: the optional FAISS index (`self._index`, modelled as
the list of its stored rows), the parallel chunk list (`self._chunks`), and
the two persisted artifacts at the configured paths (each `none` while the
file does not exist). Mutating methods return the post-call state together
with the raised error, if any, because a raised Python exception leaves the
mutations already performed in place. -/

structure VState where
  index : Option (List Vec)
  chunks : List Chunk
  fileIndex : Option (List Vec)
  fileMeta : Option (List Chunk)
deriving DecidableEq

/-- A fresh `VectorStoreService` in a directory holding no artifacts. -/
def initialVState : VState :=
  { index := none, chunks := [], fileIndex := none, fileMeta := none }

/-- `index.ntotal` of the underlying vector structure; 0 when no index
object exists. -/
def ntotal (s : VState) : ℕ := (s.index.getD []).length

/-- `VectorStoreService.create_index`: replaces `self._index` with a fresh
empty `IndexFlatIP`. -/
def create_index (s : VState) : VState := { s with index := some [] }

/-- `VectorStoreService.add_chunks(chunks)`. If no index exists one is
created first. Chunks without embeddings are filtered out; if none remain,
a `VectorStoreError` is raised. `np.array` requires a rectangular matrix
and `index.add` requires rows of the configured dimension; both failures
are raised before the index rows or the chunk list are mutated, and are
wrapped by the `except` clause. `faiss.normalize_L2` is external FAISS
code, modelled by the parameter `nrm` (applied row-wise when
`normalize_embeddings` is set). -/
def add_chunks (nrm : Vec → Vec) (st : Settings) (s : VState) (cs : List Chunk) :
    VState × Option Err :=
  let s1 := if s.index = none then create_index s else s
  let valid := cs.filter (fun c => c.embedding.isSome)
  if valid = [] then
    (s1, some (.vectorStoreError "Aucun chunk avec embedding à ajouter"))
  else
    if valid.all (fun c => (c.embedding.getD []).length = st.embedding_dimension) then
      let rows := valid.map (fun c =>
        if st.normalize_embeddings then nrm (c.embedding.getD []) else c.embedding.getD [])
      ({ s1 with
          index := some ((s1.index.getD []) ++ rows)
          chunks := s1.chunks ++ valid }, none)
    else
      (s1, some (.vectorStoreError "Échec de l\x27ajout des chunks"))

/-- Inner product of two rows (`faiss.IndexFlatIP` similarity). -/
def dot (u v : Vec) : ℚ := (List.zipWith (· * ·) u v).sum

/-- Insertion step of the descending-score ordering in which FAISS reports
its candidates. -/
def insertByScore (x : ℚ × Int) : List (ℚ × Int) → List (ℚ × Int)
  | [] => [x]
  | y :: ys => if y.1 ≤ x.1 then x :: y :: ys else y :: insertByScore x ys

/-- Sorts (score, row-index) pairs by descending score. -/
def sortByScoreDesc (l : List (ℚ × Int)) : List (ℚ × Int) :=
  l.foldr insertByScore []

/-- Modelled behaviour of `faiss.IndexFlatIP.search` (external FAISS code,
as described in the spec): the `n` highest-inner-product rows, reported in
descending-score order with their row indices; when `n` exceeds the number
of stored rows the missing slots carry the sentinel index `-1` (their score
slot is never read by the caller, which skips sentinel entries). -/
def faiss_search (rows : List Vec) (q : Vec) (n : ℕ) : List (ℚ × Int) :=
  let scored := rows.enum.map (fun p => (dot q p.2, (p.1 : Int)))
  let top := (sortByScoreDesc scored).take n
  top ++ List.replicate (n - top.length) (0, -1)

/-- `VectorStoreService._get_relevance_level(score)` with the fixed
`RELEVANCE_THRESHOLDS` (high 0.80, medium 0.65). -/
def get_relevance_level (score : ℚ) : RelevanceLevel :=
  if 4/5 ≤ score then .high
  else if 13/20 ≤ score then .medium
  else .low

/-- The result-construction loop of `VectorStoreService.search`: skips
sentinel `-1` slots, discards candidates with `score < min_score`, looks
the chunk up in the parallel list and tags it with a relevance band. An
out-of-range chunk lookup, or a score outside the `[0, 1]` range validated
by the pydantic `SearchResult` model, raises inside the `try` block, which
the `except` clause turns into a `VectorStoreError`. `faiss_search` yields
only `-1` or genuine row positions, so `Int.toNat` is faithful here. -/
def build_results (chunks : List Chunk) (min_score : ℚ) :
    List (ℚ × Int) → Except Err (List SearchResult)
  | [] => .ok []
  | (score, idx) :: rest =>
      if idx = -1 then build_results chunks min_score rest
      else if score < min_score then build_results chunks min_score rest
      else
        match chunks.get? idx.toNat with
        | none => .error (.vectorStoreError "Échec de la recherche")
        | some c =>
            if score < 0 ∨ 1 < score then
              .error (.vectorStoreError "Échec de la recherche")
            else do
              let rs ← build_results chunks min_score rest
              .ok ({ chunk := c, score := score,
                     relevance := get_relevance_level score } :: rs)

/-- `VectorStoreService.search(query_embedding, k, min_score)`. A falsy
(`None` or `0.0`) `min_score` is replaced by the configured default. The
query is normalized exactly like stored vectors, `min(k * 2, corpus)`
candidates are requested, and the surviving results are truncated to the
first `k`. -/
def search (nrm : Vec → Vec) (st : Settings) (s : VState) (q : Vec) (k : ℕ)
    (min_score? : Option ℚ) : Except Err (List SearchResult) :=
  if s.index = none ∨ s.chunks.length = 0 then
    .error (.vectorStoreError "Index vide ou non chargé")
  else
    let min_score := pyOrRat min_score? st.min_similarity_score
    let qv := if st.normalize_embeddings then nrm q else q
    let search_k := min (k * 2) s.chunks.length
    let cands := faiss_search (s.index.getD []) qv search_k
    (build_results s.chunks min_score cands).map (fun rs => rs.take k)

/-- `VectorStoreService.save`: fails when no index object exists, else
writes both artifacts. -/
def save (s : VState) : VState × Option Err :=
  match s.index with
  | none => (s, some (.vectorStoreError "Aucun index à sauvegarder"))
  | some idx => ({ s with fileIndex := some idx, fileMeta := some s.chunks }, none)

/-- `VectorStoreService.load`: fails when either artifact is missing, else
restores both. -/
def load (s : VState) : VState × Option Err :=
  match s.fileIndex with
  | none => (s, some (.vectorStoreError "Index introuvable"))
  | some idx =>
      match s.fileMeta with
      | none => (s, some (.vectorStoreError "Métadonnées introuvables"))
      | some cs => ({ s with index := some idx, chunks := cs }, none)

/-- `VectorStoreService.clear`. -/
def clear (s : VState) : VState × Option Err :=
  ({ s with index := none, chunks := [] }, none)

/-- The alignment of the two persisted artifacts: either neither exists or
both do, with chunk count equal to row count. -/
def files_aligned : Option (List Vec) → Option (List Chunk) → Bool
  | some v, some m => m.length = v.length
  | none, none => true
  | _, _ => false

/-- The store invariant of the spec: the chunk list is in 1:1 positional
correspondence with the index rows, and the persisted artifacts (written
only by `save` in this model) are aligned with each other. -/
def StoreInv (s : VState) : Prop :=
  s.chunks.length = ntotal s ∧ files_aligned s.fileIndex s.fileMeta = true

instance : DecidablePred StoreInv := fun s => by
  unfold StoreInv; infer_instance

/-! ## Context aggregator (`app/services/rag_pipeline.py`) -/

/-- The fixed chunk separator `"\n\n---\n\n"` (7 characters). -/
def sepStr : Str := "\n\n---\n\n".toList

/-- The ellipsis marker `"..."` appended to a truncated chunk. -/
def ellipsisStr : Str := "...".toList

/-- The aggregation loop of `RAGPipeline._aggregate_context`: walks results
in order with the running included-text length `total`; a chunk whose full
text still fits is included unmodified, and the first chunk that would push
`total` past `max_length` is truncated to the remaining budget with an
ellipsis marker only when that budget exceeds 100 characters, after which
the loop stops (`break`). Returns the `chunks_text` list, in order. -/
def aggregateLoop (max_length : ℕ) : List SearchResult → ℕ → List Str
  | [], _ => []
  | r :: rs, total =>
      let chunk_text := r.chunk.text
      if max_length < total + chunk_text.length then
        if 100 < max_length - total then
          [chunk_text.take (max_length - total) ++ ellipsisStr]
        else []
      else chunk_text :: aggregateLoop max_length rs (total + chunk_text.length)

/-- `RAGPipeline._aggregate_context(results)`: the included texts joined by
the fixed separator. `max_length` is `settings.max_context_length`. -/
def aggregate_context (max_length : ℕ) (results : List SearchResult) : Str :=
  List.intercalate sepStr (aggregateLoop max_length results 0)

/-- First-seen-order de-duplication, as produced by the `seen`-set loop of
`RAGPipeline._extract_sources` (and by Python `set` membership generally). -/
def firstSeen (seen : List String) : List String → List String
  | [] => []
  | x :: xs =>
      if x ∈ seen then firstSeen seen xs
      else x :: firstSeen (x :: seen) xs

/-- Python `set(l)` as a first-seen-order list of the distinct elements. -/
def pyUnique (l : List String) : List String := firstSeen [] l

/-- `RAGPipeline._extract_sources(results)`. -/
def extract_sources (results : List SearchResult) : List String :=
  pyUnique (results.map (fun r => r.chunk.metadata.source))

/-- The `metadata` dict assembled by `RAGPipeline.process_query`. -/
structure RagMetadata where
  chunk_count : ℕ
  total_chars : ℕ
  avg_score : ℚ
  sources_count : ℕ
deriving DecidableEq

/-- The response dict of `RAGPipeline.process_query`. -/
structure RagResponse where
  query : String
  context : Str
  sources : List String
  scores : List ℚ
  chunk_count : ℕ
  metadata : RagMetadata
deriving DecidableEq

/-- `RAGPipeline.process_query(query, k, min_score)`. The embedding service
is an external collaborator, modelled by `embed`. An empty result set is
the terminal `InsufficientResultsError`. -/
def process_query (nrm : Vec → Vec) (st : Settings) (s : VState)
    (embed : String → Vec) (query : String) (k : ℕ) (min_score? : Option ℚ) :
    Except Err RagResponse := do
  let query_embedding := embed query
  let results ← search nrm st s query_embedding k min_score?
  if results = [] then
    .error (.insufficientResultsError "Aucun résultat au-dessus du seuil")
  else
    let context := aggregate_context st.max_context_length results
    let sources := extract_sources results
    let scores := results.map (fun r => r.score)
    .ok { query := query
          context := context
          sources := sources
          scores := scores
          chunk_count := results.length
          metadata :=
            { chunk_count := results.length
              total_chars := context.length
              avg_score := if scores = [] then 0 else scores.sum / scores.length
              sources_count := (pyUnique sources).length } }

/-! ## Evaluator (`app/services/evaluation.py`) -/

/-- One entry of the `queries` argument of `evaluate_queries`. -/
structure EvalQuery where
  query : String
  expected_sources : List String
deriving DecidableEq

/-- One per-query entry of the `details` list. The Python dict key of
`recall_m` is `"recall"` (renamed here only because `recall` is a reserved
word in this environment). -/
structure QueryDetail where
  query : String
  recall_m : ℚ
  precision : ℚ
  avg_score : ℚ
  found_sources : List String
  expected_sources : List String
  retrieved_count : ℕ
deriving DecidableEq

/-- The aggregate report returned by `evaluate_queries`. -/
structure EvalReport where
  recall_at_k : ℚ
  precision_at_k : ℚ
  avg_similarity : ℚ
  total_queries : ℕ
  details : List QueryDetail
deriving DecidableEq

/-- Python `round(x, 3)`. Python uses banker's rounding at exact
half-thousandths; the difference is immaterial to every claim. -/
def round3 (x : ℚ) : ℚ := (round (x * 1000) : ℚ) / 1000

/-- Insertion step of Python `sorted` over strings (lexicographic by code
point, matching `Ord String`). -/
def insertStr (x : String) : List String → List String
  | [] => [x]
  | y :: ys => if compare x y = .gt then y :: insertStr x ys else x :: y :: ys

/-- Python `sorted(list(s))` for a list of distinct strings. -/
def sortStrings (l : List String) : List String := l.foldr insertStr []

/-- `EvaluationService._calculate_recall(expected, found)` on set
cardinalities. -/
def calculate_recall (expected found : List String) : ℚ :=
  if expected = [] then 1
  else ((expected.filter (fun x => x ∈ found)).length : ℚ) / expected.length

/-- `EvaluationService._calculate_precision(expected, found)` on set
cardinalities. -/
def calculate_precision (expected found : List String) : ℚ :=
  if found = [] then 0
  else ((expected.filter (fun x => x ∈ found)).length : ℚ) / found.length

/-- The per-query loop of `EvaluationService.evaluate_queries`: embeds each
query, searches with `min_score=0.0` (the literal argument of the source,
annotated there as disabling filtering), and accumulates
(total_recall, total_precision, total_similarity, details). A search
failure aborts the whole evaluation, as the unguarded call does in Python. -/
def evalLoop (nrm : Vec → Vec) (st : Settings) (s : VState)
    (embed : String → Vec) (k : ℕ) :
    List EvalQuery → Except Err (ℚ × ℚ × ℚ × List QueryDetail)
  | [] => .ok (0, 0, 0, [])
  | q :: qs => do
      let results ← search nrm st s (embed q.query) k (some 0)
      let expected := pyUnique q.expected_sources
      let found := pyUnique (results.map (fun r => r.chunk.metadata.source))
      let recall_m := calculate_recall expected found
      let precision := calculate_precision expected found
      let avg_score :=
        if results = [] then 0
        else (results.map (fun r => r.score)).sum / results.length
      let detail : QueryDetail :=
        { query := q.query
          recall_m := round3 recall_m
          precision := round3 precision
          avg_score := round3 avg_score
          found_sources := sortStrings found
          expected_sources := sortStrings expected
          retrieved_count := results.length }
      let (tr, tp, ts, ds) ← evalLoop nrm st s embed k qs
      .ok (recall_m + tr, precision + tp, avg_score + ts, detail :: ds)

/-- `EvaluationService.evaluate_queries(queries, k)`. The final averages
divide by `n = len(queries)` with no emptiness guard; the model makes the
resulting Python `ZeroDivisionError` explicit. -/
def evaluate_queries (nrm : Vec → Vec) (st : Settings) (s : VState)
    (embed : String → Vec) (queries : List EvalQuery) (k : ℕ) :
    Except Err EvalReport := do
  let (tr, tp, ts, ds) ← evalLoop nrm st s embed k queries
  let n := queries.length
  if n = 0 then .error .zeroDivisionError
  else
    .ok { recall_at_k := round3 (tr / n)
          precision_at_k := round3 (tp / n)
          avg_similarity := round3 (ts / n)
          total_queries := n
          details := ds }

/-! ## Shared concrete sample data for evaluating the models -/

/-- A minimal metadata record for sample chunks. -/
def mdata (src : String) : ChunkMetadata :=
  { source := src, chunk_index := 0, total_chunks := 1, file_type := .txt,
    created_at := 0, char_count := 1, start_char := 0, end_char := 1 }

/-- A sample chunk with no embedding attached. -/
def cNoEmb : Chunk := { id := "d", text := ['a'], embedding := none, metadata := mdata "d" }

/-- A sample embedded chunk from source `"a"` (1-dimensional embedding). -/
def cA : Chunk := { id := "a0", text := ['a'], embedding := some [1], metadata := mdata "a" }

/-- A sample embedded chunk from source `"b"` (1-dimensional embedding). -/
def cB : Chunk := { id := "b0", text := ['b'], embedding := some [1/2], metadata := mdata "b" }

/-- A loaded two-chunk store whose rows score 1 and 1/2 against the query
`[1]`. -/
def s3 : VState :=
  { index := some [[1], [1/2]], chunks := [cA, cB], fileIndex := none, fileMeta := none }

/-- A 30-character chunk of `'a'`s from source `"a"`. -/
def c30a : Chunk :=
  { id := "x", text := List.replicate 30 'a', embedding := some [9/10], metadata := mdata "a" }

/-- A 30-character chunk of `'b'`s from source `"b"`. -/
def c30b : Chunk :=
  { id := "y", text := List.replicate 30 'b', embedding := some [8/10], metadata := mdata "b" }

/-- A 30-character chunk of `'c'`s from source `"c"`. -/
def c30c : Chunk :=
  { id := "z", text := List.replicate 30 'c', embedding := some [7/10], metadata := mdata "c" }

/-- Search results of scores 0.9 / 0.8 / 0.7 over the three 30-character
chunks. -/
def r30a : SearchResult := { chunk := c30a, score := 9/10, relevance := .high }

/-- See `r30a`. -/
def r30b : SearchResult := { chunk := c30b, score := 8/10, relevance := .high }

/-- See `r30a`. -/
def r30c : SearchResult := { chunk := c30c, score := 7/10, relevance := .medium }

/-- A 200-character result chunk. -/
def r200 : SearchResult :=
  { chunk := { id := "w", text := List.replicate 200 'b', embedding := none,
               metadata := mdata "w" },
    score := 1/2, relevance := .low }

/-- A loaded three-chunk store over the 30-character chunks, scoring
0.9 / 0.8 / 0.7 against the query `[1]`. -/
def s6 : VState :=
  { index := some [[9/10], [8/10], [7/10]], chunks := [c30a, c30b, c30c],
    fileIndex := none, fileMeta := none }

/-- Settings with the context budget of the spec scenario (`max_context_length = 50`). -/
def st6 : Settings := { defaultSettings with max_context_length := 50 }

/-! ## Claim C5 -/

/-- Modelled from the spec words (§4.3 step 4), for comparison with the
code-derived `aggregateLoop`: walk the chunk texts in order with a
remaining `budget`; include each text unmodified while it fits; at the
first text that would exceed the budget, include it truncated to the
remaining budget with an ellipsis marker iff that budget exceeds 100
characters, and stop either way. -/
def aggregateSpecTexts (budget : ℕ) : List Str → List Str
  | [] => []
  | t :: ts =>
      if t.length ≤ budget then t :: aggregateSpecTexts (budget - t.length) ts
      else if 100 < budget then [t.take budget ++ ellipsisStr] else []

/-- The aggregation loop agrees with the spec description, for every
running total within the budget. -/
lemma aggregateLoop_eq_spec (max_length : ℕ) :
    ∀ (rs : List SearchResult) (total : ℕ), total ≤ max_length →
      aggregateLoop max_length rs total
        = aggregateSpecTexts (max_length - total) (rs.map (fun r => r.chunk.text)) := by
  intro rs
  induction rs with
  | nil => intro total _; simp [aggregateLoop, aggregateSpecTexts]
  | cons r rs ih =>
      intro total htot
      by_cases hfit : r.chunk.text.length ≤ max_length - total
      · have hcond : ¬ max_length < total + r.chunk.text.length := by omega
        have hrec : total + r.chunk.text.length ≤ max_length := by omega
        simp only [aggregateLoop, aggregateSpecTexts, List.map, if_neg hcond, if_pos hfit]
        rw [ih (total + r.chunk.text.length) hrec, Nat.sub_add_eq]
      · have hcond : max_length < total + r.chunk.text.length := by omega
        simp only [aggregateLoop, aggregateSpecTexts, List.map, if_pos hcond, if_neg hfit]

/-- C5 (confirmed): `_aggregate_context` walks results in returned order,
includes each chunk text unmodified until the first chunk whose full text
would exceed `max_context_length`, includes that chunk truncated to the
remaining budget with an ellipsis marker exactly when the remaining budget
exceeds 100 characters (otherwise excludes it entirely), and stops there;
formally, the code-derived aggregation equals the spec-worded walk
`aggregateSpecTexts`, joined by the fixed separator. -/
theorem C5_aggregate_refines_spec (max_length : ℕ) (results : List SearchResult) :
    aggregate_context max_length results
      = List.intercalate sepStr
          (aggregateSpecTexts max_length (results.map (fun r => r.chunk.text))) := by
  unfold aggregate_context
  rw [aggregateLoop_eq_spec max_length results 0 (Nat.zero_le _)]
  simp only [Nat.sub_zero]

/-! ## Claim C8 -/

/-- Length of a separator-join: the summed part lengths plus one separator
per gap. -/
lemma length_intercalate (sep : Str) :
    ∀ (ls : List Str),
      (List.intercalate sep ls).length
        = (ls.map List.length).sum + sep.length * (ls.length - 1) := by
  intro ls
  induction ls with
  | nil => simp [List.intercalate]
  | cons x t ih =>
      cases t with
      | nil => simp [List.intercalate, List.intersperse]
      | cons y t2 =>
          have hstep : List.intercalate sep (x :: y :: t2)
              = x ++ (sep ++ List.intercalate sep (y :: t2)) := rfl
          rw [hstep, List.length_append, List.length_append, ih]
          simp only [List.map, List.sum_cons, List.length_cons, Nat.add_sub_cancel]
          ring

/-- The summed length of the included chunk texts never exceeds the
remaining budget plus the 3-character ellipsis marker. -/
lemma aggregateLoop_sum_le (max_length : ℕ) :
    ∀ (rs : List SearchResult) (total : ℕ), total ≤ max_length →
      ((aggregateLoop max_length rs total).map List.length).sum
        ≤ (max_length - total) + 3 := by
  intro rs
  induction rs with
  | nil => intro total _; simp [aggregateLoop]
  | cons r rs ih =>
      intro total htot
      by_cases hcond : max_length < total + r.chunk.text.length
      · by_cases hrem : 100 < max_length - total
        · simp only [aggregateLoop, if_pos hcond, if_pos hrem, List.map, List.sum_cons,
            List.sum_nil, List.length_append, List.length_take]
          have : ellipsisStr.length = 3 := by decide
          omega
        · simp [aggregateLoop, if_pos hcond, if_neg hrem]
      · have hrec : total + r.chunk.text.length ≤ max_length := by omega
        simp only [aggregateLoop, if_neg hcond, List.map, List.sum_cons]
        have := ih (total + r.chunk.text.length) hrec
        omega

/-- C8 (confirmed): the aggregated context can be longer than
`max_context_length`, because the budget is applied only to the summed
chunk-text lengths while the 7-character separators and the 3-character
ellipsis are added on top. The concrete instance (budget 150, chunk texts
of lengths 30 and 200) reaches length 160 = 150 + 7·(2−1) + 3, the maximal
excess for two included chunks; in general the context length is bounded by
`max_context_length + 7·(included − 1) + 3`. -/
theorem C8_context_can_exceed_budget :
    ((aggregate_context 150 [r30a, r200]).length = 160
      ∧ 150 < (aggregate_context 150 [r30a, r200]).length
      ∧ (aggregateLoop 150 [r30a, r200] 0).length = 2
      ∧ 160 = 150 + 7 * (2 - 1) + 3)
    ∧ ∀ (max_length : ℕ) (results : List SearchResult),
        (aggregate_context max_length results).length
          ≤ max_length + 7 * ((aggregateLoop max_length results 0).length - 1) + 3 := by
  constructor
  · refine ⟨by with_unfolding_all decide, by with_unfolding_all decide, by decide, by decide⟩
  · intro max_length results
    unfold aggregate_context
    rw [length_intercalate]
    have hsum := aggregateLoop_sum_le max_length results 0 (Nat.zero_le _)
    have hsep : sepStr.length = 7 := by decide
    rw [hsep]
    omega

/-! ## Claim C2 -/

/-- The candidate slots that survive the two `continue` filters of the
search loop: non-sentinel index and score at least `min_score`. -/
def survivors (min_score : ℚ) (cands : List (ℚ × Int)) : List (ℚ × Int) :=
  cands.filter (fun p => decide (p.2 ≠ -1) && decide (min_score ≤ p.1))

lemma survivors_cons (min_score : ℚ) (p : ℚ × Int) (rest : List (ℚ × Int)) :
    survivors min_score (p :: rest)
      = if p.2 ≠ -1 ∧ min_score ≤ p.1 then p :: survivors min_score rest
        else survivors min_score rest := by
  by_cases h : p.2 ≠ -1 ∧ min_score ≤ p.1
  · simp [survivors, List.filter_cons, h]
  · rw [if_neg h]
    rcases not_and_or.mp h with h1 | h2
    · simp [survivors, List.filter_cons, not_not.mp h1]
    · simp [survivors, List.filter_cons, h2]

lemma mem_insertByScore {x y : ℚ × Int} :
    ∀ {l : List (ℚ × Int)}, y ∈ insertByScore x l → y = x ∨ y ∈ l := by
  intro l
  induction l with
  | nil =>
      intro h
      simp only [insertByScore, List.mem_singleton] at h
      exact Or.inl h
  | cons z zs ih =>
      intro h
      simp only [insertByScore] at h
      by_cases hc : z.1 ≤ x.1
      · rw [if_pos hc] at h
        rcases List.mem_cons.mp h with h1 | h2
        · exact Or.inl h1
        · exact Or.inr h2
      · rw [if_neg hc] at h
        rcases List.mem_cons.mp h with h1 | h2
        · exact Or.inr (List.mem_cons.mpr (Or.inl h1))
        · rcases ih h2 with h3 | h4
          · exact Or.inl h3
          · exact Or.inr (List.mem_cons.mpr (Or.inr h4))

lemma pairwise_insertByScore (x : ℚ × Int) :
    ∀ (l : List (ℚ × Int)), l.Pairwise (fun a b => b.1 ≤ a.1) →
      (insertByScore x l).Pairwise (fun a b => b.1 ≤ a.1) := by
  intro l
  induction l with
  | nil => intro _; simp [insertByScore]
  | cons z zs ih =>
      intro h
      rw [List.pairwise_cons] at h
      obtain ⟨hz, hzs⟩ := h
      simp only [insertByScore]
      by_cases hc : z.1 ≤ x.1
      · rw [if_pos hc]
        refine List.Pairwise.cons ?_ (List.Pairwise.cons hz hzs)
        intro b hb
        rcases List.mem_cons.mp hb with rfl | hb2
        · exact hc
        · exact le_trans (hz b hb2) hc
      · rw [if_neg hc]
        refine List.Pairwise.cons ?_ (ih hzs)
        intro b hb
        rcases mem_insertByScore hb with rfl | hb2
        · exact (not_le.mp hc).le
        · exact hz b hb2

lemma pairwise_sortByScoreDesc (l : List (ℚ × Int)) :
    (sortByScoreDesc l).Pairwise (fun a b => b.1 ≤ a.1) := by
  unfold sortByScoreDesc
  induction l with
  | nil => simp
  | cons x xs ih => exact pairwise_insertByScore x _ ih

lemma filter_replicate_false {α : Type} (f : α → Bool) (a : α) (h : f a = false) :
    ∀ m, (List.replicate m a).filter f = [] := by
  intro m
  induction m with
  | zero => rfl
  | succ k ih => simp [List.replicate_succ, List.filter_cons, h, ih]

/-- The sentinel padding of `faiss_search` is invisible to the survivor
filter, and the surviving candidates inherit the descending-score order of
the sorted candidate list. -/
lemma survivors_faiss_pairwise (rows : List Vec) (q : Vec) (n : ℕ) (ms : ℚ) :
    (survivors ms (faiss_search rows q n)).Pairwise (fun a b => b.1 ≤ a.1) := by
  unfold faiss_search survivors
  rw [List.filter_append]
  have hf : (fun p : ℚ × Int => decide (p.2 ≠ -1) && decide (ms ≤ p.1))
      ((0 : ℚ), (-1 : Int)) = false := by simp
  rw [filter_replicate_false (fun p : ℚ × Int => decide (p.2 ≠ -1) && decide (ms ≤ p.1))
    ((0 : ℚ), (-1 : Int)) hf _, List.append_nil]
  exact List.Pairwise.sublist
    (List.Sublist.trans (List.filter_sublist _) (List.take_sublist _ _))
    (pairwise_sortByScoreDesc _)

/-- Characterization of a successful run of the result-construction loop:
the produced scores are exactly the surviving candidates' scores, in
order, and every produced result matches a surviving candidate slot. -/
lemma build_results_ok_char (chunks : List Chunk) (ms : ℚ) :
    ∀ (cands : List (ℚ × Int)) (rs : List SearchResult),
      build_results chunks ms cands = .ok rs →
      rs.map (fun r => r.score) = (survivors ms cands).map (fun p => p.1)
      ∧ ∀ r ∈ rs, ∃ p ∈ survivors ms cands,
          p.1 = r.score ∧ chunks.get? p.2.toNat = some r.chunk
          ∧ r.relevance = get_relevance_level p.1 := by
  intro cands
  induction cands with
  | nil =>
      intro rs h
      simp only [build_results] at h
      obtain rfl := (Except.ok.inj h).symm
      simp [survivors]
  | cons p rest ih =>
      obtain ⟨score, idx⟩ := p
      intro rs h
      simp only [build_results] at h
      by_cases hidx : idx = -1
      · rw [if_pos hidx] at h
        obtain ⟨h1, h2⟩ := ih rs h
        have hdrop : survivors ms ((score, idx) :: rest) = survivors ms rest := by
          rw [survivors_cons, if_neg]
          intro hcontra
          exact hcontra.1 hidx
        rw [hdrop]
        exact ⟨h1, h2⟩
      · rw [if_neg hidx] at h
        by_cases hlt : score < ms
        · rw [if_pos hlt] at h
          obtain ⟨h1, h2⟩ := ih rs h
          have hdrop : survivors ms ((score, idx) :: rest) = survivors ms rest := by
            rw [survivors_cons, if_neg]
            intro hcontra
            exact absurd hcontra.2 (not_le.mpr hlt)
          rw [hdrop]
          exact ⟨h1, h2⟩
        · rw [if_neg hlt] at h
          have hkeep : survivors ms ((score, idx) :: rest)
              = (score, idx) :: survivors ms rest := by
            rw [survivors_cons, if_pos ⟨hidx, not_lt.mp hlt⟩]
          cases hget : chunks.get? idx.toNat with
          | none =>
              simp only [hget] at h
              exact absurd h (by simp)
          | some c =>
              simp only [hget] at h
              by_cases hrange : score < 0 ∨ 1 < score
              · rw [if_pos hrange] at h
                exact absurd h (by simp)
              · rw [if_neg hrange] at h
                cases hrec : build_results chunks ms rest with
                | error e =>
                    rw [hrec] at h
                    exact absurd h (by simp [Bind.bind, Except.bind])
                | ok rs2 =>
                    rw [hrec] at h
                    simp only [Bind.bind, Except.bind] at h
                    obtain rfl := (Except.ok.inj h).symm
                    obtain ⟨h1, h2⟩ := ih rs2 hrec
                    constructor
                    · rw [hkeep]
                      simp only [List.map, h1]
                    · intro r hr
                      rcases List.mem_cons.mp hr with rfl | hr2
                      · exact ⟨(score, idx), by rw [hkeep]; exact List.mem_cons_self _ _,
                          rfl, hget, rfl⟩
                      · obtain ⟨p, hp, hps⟩ := h2 r hr2
                        exact ⟨p, by rw [hkeep]; exact List.mem_cons.mpr (Or.inr hp), hps⟩

/-- Every error raised by the result-construction loop is the generic
`VectorStoreError` of the enclosing `except` clause. -/
lemma build_results_error (chunks : List Chunk) (ms : ℚ) :
    ∀ (cands : List (ℚ × Int)) (e : Err),
      build_results chunks ms cands = .error e →
      e = .vectorStoreError "Échec de la recherche" := by
  intro cands
  induction cands with
  | nil =>
      intro e h
      simp only [build_results] at h
      exact absurd h (by simp)
  | cons p rest ih =>
      obtain ⟨score, idx⟩ := p
      intro e h
      simp only [build_results] at h
      by_cases hidx : idx = -1
      · rw [if_pos hidx] at h; exact ih e h
      · rw [if_neg hidx] at h
        by_cases hlt : score < ms
        · rw [if_pos hlt] at h; exact ih e h
        · rw [if_neg hlt] at h
          cases hget : chunks.get? idx.toNat with
          | none =>
              simp only [hget] at h
              exact (Except.error.inj h).symm
          | some c =>
              simp only [hget] at h
              by_cases hrange : score < 0 ∨ 1 < score
              · rw [if_pos hrange] at h
                exact (Except.error.inj h).symm
              · rw [if_neg hrange] at h
                cases hrec : build_results chunks ms rest with
                | error e2 =>
                    rw [hrec] at h
                    simp only [Bind.bind, Except.bind] at h
                    exact (Except.error.inj h) ▸ ih e2 hrec
                | ok rs2 =>
                    rw [hrec] at h
                    simp only [Bind.bind, Except.bind] at h
                    exact absurd h (by simp)

/-- Decomposition of a successful `search` call into its result-construction
run followed by the `[:k]` truncation. -/
lemma search_ok_decomp (nrm : Vec → Vec) (st : Settings) (s : VState) (q : Vec)
    (k : ℕ) (min_score? : Option ℚ) (rs : List SearchResult)
    (h : search nrm st s q k min_score? = .ok rs) :
    ∃ full, build_results s.chunks (pyOrRat min_score? st.min_similarity_score)
        (faiss_search (s.index.getD []) (if st.normalize_embeddings then nrm q else q)
          (min (k * 2) s.chunks.length)) = .ok full
      ∧ rs = full.take k := by
  unfold search at h
  by_cases hg : s.index = none ∨ s.chunks.length = 0
  · rw [if_pos hg] at h
    exact absurd h (by simp)
  · rw [if_neg hg] at h
    replace h : Except.map (fun l => List.take k l)
        (build_results s.chunks (pyOrRat min_score? st.min_similarity_score)
          (faiss_search (s.index.getD []) (if st.normalize_embeddings then nrm q else q)
            (min (k * 2) s.chunks.length))) = Except.ok rs := h
    cases hbr : build_results s.chunks (pyOrRat min_score? st.min_similarity_score)
        (faiss_search (s.index.getD []) (if st.normalize_embeddings then nrm q else q)
          (min (k * 2) s.chunks.length)) with
    | error e =>
        rw [hbr] at h
        exact absurd h (by simp [Except.map])
    | ok full =>
        rw [hbr] at h
        simp only [Except.map] at h
        exact ⟨full, rfl, (Except.ok.inj h).symm⟩

/-- C2 (confirmed): for every query vector, `k` and `min_score`, a
successful search returns at most `k` results, each scoring at least the
requested `min_score` (and at least the effective threshold obtained by the
falsy-default rule), in descending-score order; each result corresponds to
a non-sentinel slot among the `min(2k, corpus)` candidates reported by the
index, and the result count is exactly `min k (surviving candidates)` — no
backfill when fewer than `k` survive the filter. The hypothesis
`0 ≤ min_similarity_score` is the validated configuration range. -/
theorem C2_search_properties (nrm : Vec → Vec) (st : Settings) (s : VState)
    (q : Vec) (k : ℕ) (min_score? : Option ℚ) (rs : List SearchResult)
    (hval : 0 ≤ st.min_similarity_score)
    (hok : search nrm st s q k min_score? = .ok rs) :
    rs.length ≤ k
    ∧ (∀ m, min_score? = some m → ∀ r ∈ rs, m ≤ r.score)
    ∧ (∀ r ∈ rs, pyOrRat min_score? st.min_similarity_score ≤ r.score)
    ∧ rs.Pairwise (fun a b => b.score ≤ a.score)
    ∧ (∀ r ∈ rs, ∃ p ∈ faiss_search (s.index.getD [])
          (if st.normalize_embeddings then nrm q else q) (min (k * 2) s.chunks.length),
          p.2 ≠ -1 ∧ p.1 = r.score ∧ s.chunks.get? p.2.toNat = some r.chunk)
    ∧ rs.length = min k (survivors (pyOrRat min_score? st.min_similarity_score)
        (faiss_search (s.index.getD []) (if st.normalize_embeddings then nrm q else q)
          (min (k * 2) s.chunks.length))).length := by
  obtain ⟨full, hbr, hrs⟩ := search_ok_decomp nrm st s q k min_score? rs hok
  obtain ⟨hscores, hmem⟩ := build_results_ok_char _ _ _ _ hbr
  set ms := pyOrRat min_score? st.min_similarity_score with hms
  set cands := faiss_search (s.index.getD [])
    (if st.normalize_embeddings then nrm q else q) (min (k * 2) s.chunks.length)
  have hfull_len : full.length = (survivors ms cands).length := by
    have := congrArg List.length hscores
    simpa using this
  have hlen : rs.length = min k (survivors ms cands).length := by
    rw [hrs, List.length_take, hfull_len]
  have heff : ∀ r ∈ rs, ms ≤ r.score := by
    intro r hr
    have hrf : r ∈ full := List.mem_of_mem_take (hrs ▸ hr)
    obtain ⟨p, hp, hp1, _, _⟩ := hmem r hrf
    have hp2 : p ∈ List.filter (fun p => decide (p.2 ≠ -1) && decide (ms ≤ p.1)) cands := hp
    have hcond := List.of_mem_filter hp2
    have h2 : ms ≤ p.1 := by
      simp only [Bool.and_eq_true, decide_eq_true_eq] at hcond
      exact hcond.2
    exact hp1 ▸ h2
  refine ⟨?_, ?_, heff, ?_, ?_, hlen⟩
  · rw [hlen]; exact Nat.min_le_left _ _
  · intro m hm r hr
    have h1 := heff r hr
    rw [hms, hm] at h1
    by_cases hz : m = 0
    · subst hz
      simpa [pyOrRat] using le_trans hval (by simpa [pyOrRat] using h1)
    · simpa [pyOrRat, hz] using h1
  · have hpw_surv : (survivors ms cands).Pairwise (fun a b => b.1 ≤ a.1) :=
      survivors_faiss_pairwise _ _ _ _
    have hpw_fst : ((survivors ms cands).map (fun p => p.1)).Pairwise
        (fun a b => b ≤ a) := List.pairwise_map.mpr hpw_surv
    have hpw_full : (full.map (fun r => r.score)).Pairwise (fun a b => b ≤ a) := by
      rw [hscores]; exact hpw_fst
    have hpw_full2 : full.Pairwise (fun a b => b.score ≤ a.score) :=
      List.pairwise_map.mp hpw_full
    rw [hrs]
    exact List.Pairwise.sublist (List.take_sublist _ _) hpw_full2
  · intro r hr
    have hrf : r ∈ full := List.mem_of_mem_take (hrs ▸ hr)
    obtain ⟨p, hp, hp1, hp2, _⟩ := hmem r hrf
    have hpf : p ∈ List.filter (fun p => decide (p.2 ≠ -1) && decide (ms ≤ p.1)) cands := hp
    have hpc : p ∈ cands := List.mem_of_mem_filter hpf
    have hcond := List.of_mem_filter hpf
    have hne : p.2 ≠ -1 := by
      simp only [Bool.and_eq_true, decide_eq_true_eq] at hcond
      exact hcond.1
    exact ⟨p, hpc, hne, hp1, hp2⟩

/-- Witness for C2: a concrete successful search (store `s3`, query `[1]`,
`k = 1`, default threshold) on which the hypotheses hold and the theorem
applies. -/
theorem C2_search_properties_witness :
    0 ≤ defaultSettings.min_similarity_score
    ∧ search id defaultSettings s3 [1] 1 none
        = .ok [{ chunk := cA, score := 1, relevance := .high }]
    ∧ [({ chunk := cA, score := 1, relevance := .high } : SearchResult)].length ≤ 1 := by
  have h1 : (0 : ℚ) ≤ defaultSettings.min_similarity_score := by
    with_unfolding_all decide
  have h2 : search id defaultSettings s3 [1] 1 none
      = .ok [{ chunk := cA, score := 1, relevance := .high }] := by
    with_unfolding_all decide
  exact ⟨h1, h2, (C2_search_properties id defaultSettings s3 [1] 1 none _ h1 h2).1⟩

/-! ## Claims C1 and C7 -/

/-- `add_chunks` when no chunk carries an embedding: the error is raised
after the index has (possibly) been created. -/
lemma add_chunks_no_valid (nrm : Vec → Vec) (st : Settings) (s : VState) (cs : List Chunk)
    (h : cs.filter (fun c => c.embedding.isSome) = []) :
    add_chunks nrm st s cs
      = (if s.index = none then create_index s else s,
         some (.vectorStoreError "Aucun chunk avec embedding à ajouter")) := by
  simp [add_chunks, h]

/-- `add_chunks` when the embedding matrix is rejected (ragged rows or
wrong dimension): the error is raised before any mutation of the rows or
the chunk list. -/
lemma add_chunks_dim_fail (nrm : Vec → Vec) (st : Settings) (s : VState) (cs : List Chunk)
    (h1 : ¬ cs.filter (fun c => c.embedding.isSome) = [])
    (h2 : ¬ ((cs.filter (fun c => c.embedding.isSome)).all
        (fun c => (c.embedding.getD []).length = st.embedding_dimension)) = true) :
    add_chunks nrm st s cs
      = (if s.index = none then create_index s else s,
         some (.vectorStoreError "Échec de l\x27ajout des chunks")) := by
  simp [add_chunks, h1, h2]

/-- `add_chunks` on a valid batch: the rows and the chunk list are extended
in parallel. -/
lemma add_chunks_success (nrm : Vec → Vec) (st : Settings) (s : VState) (cs : List Chunk)
    (h1 : ¬ cs.filter (fun c => c.embedding.isSome) = [])
    (h2 : ((cs.filter (fun c => c.embedding.isSome)).all
        (fun c => (c.embedding.getD []).length = st.embedding_dimension)) = true) :
    add_chunks nrm st s cs
      = ({ (if s.index = none then create_index s else s) with
            index := some (((if s.index = none then create_index s else s).index.getD [])
              ++ (cs.filter (fun c => c.embedding.isSome)).map
                  (fun c => if st.normalize_embeddings then nrm (c.embedding.getD [])
                    else c.embedding.getD []))
            chunks := (if s.index = none then create_index s else s).chunks
              ++ cs.filter (fun c => c.embedding.isSome) }, none) := by
  simp [add_chunks, h1, h2]

/-- C1 counterexample: calling `add_chunks` on a fresh store with a chunk
list containing no embedded chunk raises `VectorStoreError`, yet does NOT
leave the store in its prior state: `create_index` has already replaced the
absent index with a fresh empty one. The difference is observable — `save`
fails on the prior state but succeeds afterwards. -/
theorem C1_counterexample :
    (add_chunks id defaultSettings initialVState [cNoEmb]).2.isSome = true
    ∧ (add_chunks id defaultSettings initialVState [cNoEmb]).1 ≠ initialVState
    ∧ (save initialVState).2.isSome = true
    ∧ (save (add_chunks id defaultSettings initialVState [cNoEmb]).1).2 = none := by
  refine ⟨by decide, by decide, by decide, by decide⟩

/-- C1 (amended): starting from any state satisfying the alignment
invariant, every successful `add_chunks`, `load`, `clear` (and `save`)
preserves `len(chunks) = ntotal`; and a failing `add_chunks` leaves the
store unchanged EXCEPT that, when no index object existed, a fresh empty
index has been created (the chunk list and the stored rows are untouched
either way, so the invariant also survives the failure). -/
theorem C1_invariant_and_atomicity (nrm : Vec → Vec) (st : Settings)
    (s : VState) (cs : List Chunk) (hinv : StoreInv s) :
    ((add_chunks nrm st s cs).2 = none → StoreInv (add_chunks nrm st s cs).1)
    ∧ ((add_chunks nrm st s cs).2 ≠ none →
        ((add_chunks nrm st s cs).1 = s
          ∨ (s.index = none ∧ (add_chunks nrm st s cs).1 = { s with index := some [] })))
    ∧ ((add_chunks nrm st s cs).2 ≠ none → StoreInv (add_chunks nrm st s cs).1)
    ∧ ((load s).2 = none → StoreInv (load s).1)
    ∧ StoreInv (clear s).1
    ∧ ((save s).2 = none → StoreInv (save s).1) := by
  obtain ⟨hlen, hfiles⟩ := hinv
  have hs1inv : StoreInv (if s.index = none then create_index s else s) := by
    by_cases h : s.index = none
    · have hzero : s.chunks.length = 0 := by
        rw [hlen]; simp [ntotal, h]
      refine ⟨?_, ?_⟩
      · simp [h, create_index, ntotal, hzero]
      · simpa [h, create_index] using hfiles
    · simpa [h] using And.intro hlen hfiles
  have hs1id : s.index ≠ none → (if s.index = none then create_index s else s) = s := by
    intro h; rw [if_neg h]
  have hs1new : s.index = none →
      (if s.index = none then create_index s else s) = { s with index := some [] } := by
    intro h; rw [if_pos h]; rfl
  have hfailshape : ∀ (e : Err),
      add_chunks nrm st s cs = (if s.index = none then create_index s else s, some e) →
      ((add_chunks nrm st s cs).2 = none → StoreInv (add_chunks nrm st s cs).1)
      ∧ ((add_chunks nrm st s cs).2 ≠ none →
          ((add_chunks nrm st s cs).1 = s
            ∨ (s.index = none ∧ (add_chunks nrm st s cs).1 = { s with index := some [] })))
      ∧ ((add_chunks nrm st s cs).2 ≠ none → StoreInv (add_chunks nrm st s cs).1) := by
    intro e heq
    rw [heq]
    refine ⟨by intro h; exact absurd h (by simp), ?_, by intro _; exact hs1inv⟩
    intro _
    by_cases hidx : s.index = none
    · exact Or.inr ⟨hidx, by simp only [hs1new hidx]⟩
    · exact Or.inl (by simp only [hs1id hidx])
  have haddpart :
      ((add_chunks nrm st s cs).2 = none → StoreInv (add_chunks nrm st s cs).1)
      ∧ ((add_chunks nrm st s cs).2 ≠ none →
          ((add_chunks nrm st s cs).1 = s
            ∨ (s.index = none ∧ (add_chunks nrm st s cs).1 = { s with index := some [] })))
      ∧ ((add_chunks nrm st s cs).2 ≠ none → StoreInv (add_chunks nrm st s cs).1) := by
    by_cases hvalid : cs.filter (fun c => c.embedding.isSome) = []
    · exact hfailshape _ (add_chunks_no_valid nrm st s cs hvalid)
    · by_cases hdim : ((cs.filter (fun c => c.embedding.isSome)).all
          (fun c => (c.embedding.getD []).length = st.embedding_dimension)) = true
      · rw [add_chunks_success nrm st s cs hvalid hdim]
        refine ⟨?_, by intro h; exact absurd rfl h, by intro h; exact absurd rfl h⟩
        intro _
        obtain ⟨hs1len, hs1files⟩ := hs1inv
        refine ⟨?_, by simpa using hs1files⟩
        simp only [ntotal, Option.getD_some, List.length_append, List.length_map]
        simp only [ntotal] at hs1len
        omega
      · exact hfailshape _ (add_chunks_dim_fail nrm st s cs hvalid hdim)
  refine ⟨haddpart.1, haddpart.2.1, haddpart.2.2, ?_, ?_, ?_⟩
  · cases hfi : s.fileIndex with
    | none => intro h; simp [load, hfi] at h
    | some v =>
        cases hfm : s.fileMeta with
        | none => intro h; simp [load, hfi, hfm] at h
        | some m =>
            intro _
            have hload : load s = ({ s with index := some v, chunks := m }, none) := by
              simp [load, hfi, hfm]
            rw [hload]
            have hfa := hfiles
            rw [hfi, hfm] at hfa
            have halign : m.length = v.length := by
              simpa [files_aligned] using hfa
            exact ⟨by simpa [ntotal] using halign, by simpa using hfiles⟩
  · exact ⟨by simp [clear, ntotal], by simpa [clear] using hfiles⟩
  · cases hix : s.index with
    | none => intro h; simp [save, hix] at h
    | some rows =>
        intro _
        have hsave : save s
            = ({ s with fileIndex := some rows, fileMeta := some s.chunks }, none) := by
          simp [save, hix]
        rw [hsave]
        have hrows : s.chunks.length = rows.length := by
          rw [hlen]; simp [ntotal, hix]
        exact ⟨by simpa [ntotal] using hlen, by simp [files_aligned, hrows]⟩

/-- Witness for C1: the invariant holds of the concrete store `s3` and the
theorem applies to it on a concrete failing add. -/
theorem C1_invariant_and_atomicity_witness :
    StoreInv s3
    ∧ ((add_chunks id defaultSettings s3 [cNoEmb]).2 ≠ none →
        ((add_chunks id defaultSettings s3 [cNoEmb]).1 = s3
          ∨ (s3.index = none
            ∧ (add_chunks id defaultSettings s3 [cNoEmb]).1 = { s3 with index := some [] }))) := by
  have h1 : StoreInv s3 := by decide
  exact ⟨h1, (C1_invariant_and_atomicity id defaultSettings s3 [cNoEmb] h1).2.1⟩

/-- C7 counterexample: a created-but-empty index (reachable via the failed
add of `C1_counterexample`) holds zero chunks and zero vectors, yet `save`
succeeds — `save` only fails when the index object is absent. -/
theorem C7_counterexample :
    ((add_chunks id defaultSettings initialVState [cNoEmb]).1.chunks.length = 0
      ∧ ntotal (add_chunks id defaultSettings initialVState [cNoEmb]).1 = 0)
    ∧ (save (add_chunks id defaultSettings initialVState [cNoEmb]).1).2 = none := by
  refine ⟨⟨by decide, by decide⟩, by decide⟩

/-- C7 (amended): `save` raises `VectorStoreError` exactly when the index
object is absent (never created, or cleared) — an existing index with zero
vectors saves successfully — and `load` raises `VectorStoreError` exactly
when either persisted artifact is missing. -/
theorem C7_save_load_failure (s : VState) :
    ((save s).2 ≠ none ↔ s.index = none)
    ∧ ((load s).2 ≠ none ↔ (s.fileIndex = none ∨ s.fileMeta = none)) := by
  constructor
  · cases hix : s.index with
    | none => simp [save, hix]
    | some rows => simp [save, hix]
  · cases hfi : s.fileIndex with
    | none => simp [load, hfi]
    | some v =>
        cases hfm : s.fileMeta with
        | none => simp [load, hfi, hfm]
        | some m => simp [load, hfi, hfm]

/-! ## Claim C4 -/

/-- C4 counterexample: with `chunk_size = 2` tokens and `overlap = 1`
(character budget 8, character overlap 4), the text `"ab\n\ncccccccccc"`
contains a 10-character paragraph exceeding the budget, yet — because the
accumulation buffer already holds `"ab"` — that paragraph is NOT hard-split:
the emitted chunks have lengths 2 and 14, and the 14-character chunk
exceeds the 8-character budget. -/
theorem C4_counterexample :
    (chunk_text defaultSettings 0 ("ab\n\ncccccccccc".toList) "doc" FileType.txt
        (some 2) (some 1)).map (fun l => l.map (fun c => c.text.length)) = .ok [2, 14]
    ∧ (smart_chunk_by_chars ("ab\n\ncccccccccc".toList) (2 * 4) (1 * 4)).map List.length
        = [2, 14]
    ∧ ¬ (∀ t ∈ smart_chunk_by_chars ("ab\n\ncccccccccc".toList) (2 * 4) (1 * 4),
          t.length ≤ 2 * 4) := by
  refine ⟨by decide, by decide, by decide⟩

/-- C4 (amended): the hard split fires only when the oversized paragraph is
reached while the accumulation buffer is empty; in that case the paragraph
is emitted as `para[i : i + budget]` slices, each of length at most the
character budget, consecutive slices sharing an `overlap`-character region
(the last `overlap` characters of a slice are the first `overlap`
characters of the next). When the buffer is non-empty, the oversized
paragraph is instead appended after the buffer's overlap tail without being
split, so emitted chunks are not bounded by the budget in general
(`C4_counterexample`). -/
theorem C4_hard_split_behaviour :
    (∀ (para : Str) (cs ov : ℕ), ov < cs →
        ∀ t ∈ hardSlices para cs ov, t.length ≤ cs)
    ∧ (∀ (para : Str) (cs ov j : ℕ), ov ≤ cs →
        ((para.drop (j * (cs - ov))).take cs).drop (cs - ov)
          = ((para.drop ((j + 1) * (cs - ov))).take cs).take ov)
    ∧ (∀ (cs ov : ℕ) (p : Str) (rest chunks : List Str),
        ¬ pyStrip p = [] → cs < (pyStrip p).length →
        smartChunkLoop cs ov (p :: rest) [] chunks
          = smartChunkLoop cs ov rest [] (chunks ++ hardSlices (pyStrip p) cs ov))
    ∧ (∀ (cs ov : ℕ) (p : Str) (rest : List Str) (current : Str) (chunks : List Str),
        ¬ pyStrip p = [] → current ≠ [] →
        cs < current.length + (pyStrip p).length + 2 →
        smartChunkLoop cs ov (p :: rest) current chunks
          = smartChunkLoop cs ov rest
              (pyLastChars current ov ++ nl2 ++ pyStrip p) (chunks ++ [current])) := by
  refine ⟨?_, ?_, ?_, ?_⟩
  · intro para cs ov _ t ht
    simp only [hardSlices, List.mem_map] at ht
    obtain ⟨i, _, ht⟩ := ht
    rw [← ht, List.length_take]
    exact Nat.min_le_left _ _
  · intro para cs ov j hov
    rw [List.drop_take, List.drop_drop, List.take_take, Nat.succ_mul]
    congr 1
    omega
  · intro cs ov p rest chunks hp hlen
    simp only [smartChunkLoop]
    rw [if_neg hp, if_pos (by simp only [List.length_nil]; omega),
      if_neg (by simp), if_pos hlen]
  · intro cs ov p rest current chunks hp hcur hcond
    simp only [smartChunkLoop]
    rw [if_neg hp, if_pos hcond, if_pos hcur]

/-- Witness for C4: the amended statements applied at the concrete inputs
of the counterexample (budget 8, overlap 4, paragraph of ten `c`s). -/
theorem C4_hard_split_behaviour_witness :
    (4 < 8 ∧ ∀ t ∈ hardSlices ("cccccccccc".toList) 8 4, t.length ≤ 8)
    ∧ (4 ≤ 8 ∧ ((("cccccccccc".toList).drop (0 * (8 - 4))).take 8).drop (8 - 4)
        = ((("cccccccccc".toList).drop ((0 + 1) * (8 - 4))).take 8).take 4)
    ∧ (¬ pyStrip ("cccccccccc".toList) = []
        ∧ 8 < (pyStrip ("cccccccccc".toList)).length
        ∧ smartChunkLoop 8 4 ["cccccccccc".toList] [] []
            = smartChunkLoop 8 4 [] []
                ([] ++ hardSlices (pyStrip ("cccccccccc".toList)) 8 4))
    ∧ (¬ pyStrip ("cccccccccc".toList) = [] ∧ ("ab".toList : Str) ≠ []
        ∧ 8 < ("ab".toList : Str).length + (pyStrip ("cccccccccc".toList)).length + 2
        ∧ smartChunkLoop 8 4 ["cccccccccc".toList] ("ab".toList) []
            = smartChunkLoop 8 4 []
                (pyLastChars ("ab".toList) 4 ++ nl2 ++ pyStrip ("cccccccccc".toList))
                ([] ++ ["ab".toList])) := by
  refine ⟨⟨by decide, C4_hard_split_behaviour.1 _ 8 4 (by decide)⟩,
    ⟨by decide, C4_hard_split_behaviour.2.1 _ 8 4 0 (by decide)⟩,
    ⟨by decide, by decide, C4_hard_split_behaviour.2.2.1 8 4 _ [] [] (by decide) (by decide)⟩,
    ⟨by decide, by decide, by decide,
      C4_hard_split_behaviour.2.2.2 8 4 _ [] _ [] (by decide) (by decide) (by decide)⟩⟩

/-! ## Claim C9 -/

/-- C9 counterexample: the single-space text is non-empty, yet
`chunk_text(" ", chunk_size=0, overlap=0)` raises `ChunkingError` (the
blank-input guard fires), refuting the claim that the call never raises
for non-empty text. -/
theorem C9_counterexample :
    chunk_text defaultSettings 0 [' '] "doc" FileType.txt (some 0) (some 0)
        = .error (.chunkingError "Le texte ne peut pas être vide")
    ∧ ([' '] : Str) ≠ [] := by
  refine ⟨by decide, by decide⟩

/-- C9 (amended): passing `chunk_size = 0` or `overlap = 0` behaves
identically to omitting the argument — a falsy value is replaced by the
configured defaults (300 / 50) before validation, so the caller can never
obtain zero overlap and the `overlap >= chunk_size` validation never
rejects the defaulted call; consequently `chunk_text(text, ..., 0, 0)`
raises exactly when the omitted-argument call raises (e.g. on blank
input). -/
theorem C9_falsy_size_defaults (now : ℕ) (text : Str) (source : String) (ft : FileType) :
    chunk_text defaultSettings now text source ft (some 0) (some 0)
      = chunk_text defaultSettings now text source ft none none
    ∧ (∀ (ov? : Option ℕ), pyOrNat ov? defaultSettings.chunk_overlap ≠ 0)
    ∧ pyOrNat (some 0) defaultSettings.chunk_size = 300
    ∧ pyOrNat (some 0) defaultSettings.chunk_overlap = 50
    ∧ ¬ pyOrNat (some 0) defaultSettings.chunk_size
        ≤ pyOrNat (some 0) defaultSettings.chunk_overlap := by
  refine ⟨rfl, ?_, by decide, by decide, by decide⟩
  intro ov?
  cases ov? with
  | none => decide
  | some n =>
      by_cases h : n = 0
      · subst h; decide
      · simp [pyOrNat, h]

/-- Witness for C9: the amended statement applied at a concrete call. -/
theorem C9_falsy_size_defaults_witness :
    chunk_text defaultSettings 0 ("hi".toList) "doc" FileType.txt (some 0) (some 0)
      = chunk_text defaultSettings 0 ("hi".toList) "doc" FileType.txt none none
    ∧ pyOrNat (some 0) defaultSettings.chunk_overlap = 50 :=
  ⟨(C9_falsy_size_defaults 0 ("hi".toList) "doc" FileType.txt).1,
   (C9_falsy_size_defaults 0 ("hi".toList) "doc" FileType.txt).2.2.2.1⟩

/-! ## Claim C10 -/

/-- `search` never raises Python's `ZeroDivisionError`: its failure paths
are the empty-index guard and the wrapped construction loop, all
`VectorStoreError`. -/
lemma search_not_zero_div (nrm : Vec → Vec) (st : Settings) (s : VState)
    (q : Vec) (k : ℕ) (m : Option ℚ) :
    search nrm st s q k m ≠ .error .zeroDivisionError := by
  unfold search
  by_cases hg : s.index = none ∨ s.chunks.length = 0
  · rw [if_pos hg]; simp
  · rw [if_neg hg]
    intro h
    replace h : Except.map (fun l => List.take k l)
        (build_results s.chunks (pyOrRat m st.min_similarity_score)
          (faiss_search (s.index.getD []) (if st.normalize_embeddings then nrm q else q)
            (min (k * 2) s.chunks.length))) = .error .zeroDivisionError := h
    cases hbr : build_results s.chunks (pyOrRat m st.min_similarity_score)
        (faiss_search (s.index.getD []) (if st.normalize_embeddings then nrm q else q)
          (min (k * 2) s.chunks.length)) with
    | error e =>
        rw [hbr] at h
        have he : e = .zeroDivisionError := by simpa [Except.map] using h
        have := build_results_error _ _ _ _ hbr
        rw [he] at this
        exact absurd this (by simp)
    | ok full =>
        rw [hbr] at h
        simp [Except.map] at h

/-- The evaluation loop can only fail with a search error, never with
`ZeroDivisionError`. -/
lemma evalLoop_not_zero_div (nrm : Vec → Vec) (st : Settings) (s : VState)
    (embed : String → Vec) (k : ℕ) :
    ∀ (qs : List EvalQuery),
      evalLoop nrm st s embed k qs ≠ .error .zeroDivisionError := by
  intro qs
  induction qs with
  | nil => simp [evalLoop]
  | cons q qs ih =>
      intro h
      simp only [evalLoop] at h
      cases hs : search nrm st s (embed q.query) k (some 0) with
      | error e =>
          rw [hs] at h
          have he : e = .zeroDivisionError := by simpa [Bind.bind, Except.bind] using h
          exact search_not_zero_div nrm st s (embed q.query) k (some 0) (he ▸ hs)
      | ok results =>
          rw [hs] at h
          simp only [Bind.bind, Except.bind] at h
          cases hrec : evalLoop nrm st s embed k qs with
          | error e2 =>
              rw [hrec] at h
              have he2 : e2 = .zeroDivisionError := by simpa using h
              exact ih (he2 ▸ hrec)
          | ok t =>
              rw [hrec] at h
              simp at h

/-- C10 (confirmed): `evaluate_queries` requires a non-empty query list.
For every non-empty list the divisor `n` is positive and the unguarded
Python division cannot raise `ZeroDivisionError`; calling with the empty
list fails with exactly that `ZeroDivisionError`, which is none of the
documented application error kinds. -/
theorem C10_evaluate_empty_division (nrm : Vec → Vec) (st : Settings)
    (s : VState) (embed : String → Vec) (qs : List EvalQuery) (k : ℕ)
    (h : qs ≠ []) :
    evaluate_queries nrm st s embed qs k ≠ .error .zeroDivisionError
    ∧ 0 < qs.length
    ∧ evaluate_queries nrm st s embed [] k = .error .zeroDivisionError := by
  refine ⟨?_, List.length_pos.mpr h, rfl⟩
  intro hcontra
  unfold evaluate_queries at hcontra
  cases hloop : evalLoop nrm st s embed k qs with
  | error e =>
      rw [hloop] at hcontra
      have he : e = .zeroDivisionError := by simpa [Bind.bind, Except.bind] using hcontra
      exact evalLoop_not_zero_div nrm st s embed k qs (he ▸ hloop)
  | ok t =>
      obtain ⟨tr, tp, ts, ds⟩ := t
      rw [hloop] at hcontra
      simp only [Bind.bind, Except.bind] at hcontra
      rw [if_neg (fun hz => h (List.length_eq_zero.mp hz))] at hcontra
      simp at hcontra

/-- Witness for C10: a concrete one-query evaluation over the store `s3`. -/
theorem C10_evaluate_empty_division_witness :
    ([(⟨"q", []⟩ : EvalQuery)] ≠ [])
    ∧ (evaluate_queries id defaultSettings s3 (fun _ => [1]) [⟨"q", []⟩] 5
          ≠ .error .zeroDivisionError
        ∧ 0 < [(⟨"q", []⟩ : EvalQuery)].length
        ∧ evaluate_queries id defaultSettings s3 (fun _ => [1]) [] 5
            = .error .zeroDivisionError) :=
  ⟨by decide,
   C10_evaluate_empty_division id defaultSettings s3 (fun _ => [1]) [⟨"q", []⟩] 5 (by decide)⟩

/-! ## Claim C3 -/

/-- C3 (code_bug): the evaluator passes `min_score = 0.0`, but `search`
replaces it with the configured default through the Python falsy `or`
(`min_score or settings.min_similarity_score`), so the effective threshold
is 0.65, not 0, and score filtering IS applied. On the concrete store `s3`
(candidate scores 1 and 1/2 for sources `"a"` and `"b"`), the top-2
candidate list contains the slot for source `"b"`, yet the evaluator's
found-sources set is `{"a"}` only — the 0.5-scoring candidate was dropped,
contradicting both the claim and the source's own inline comment
(`Pas de filtrage pour évaluation`). -/
theorem C3_evaluator_min_score_filtered :
    pyOrRat (some 0) defaultSettings.min_similarity_score
        = defaultSettings.min_similarity_score
    ∧ (evaluate_queries id defaultSettings s3 (fun _ => [1]) [⟨"q", ["a", "b"]⟩] 5).map
        (fun r => r.details.map (fun d => (d.found_sources, d.retrieved_count)))
      = .ok [(["a"], 1)]
    ∧ faiss_search [[1], [1/2]] [1] (min (5 * 2) s3.chunks.length) = [(1, 0), (1/2, 1)]
    ∧ cB.metadata.source = "b" := by
  refine ⟨by with_unfolding_all decide, by with_unfolding_all decide,
    by with_unfolding_all decide, by decide⟩

/-! ## Claim C6 -/

/-- C6 counterexample: with `max_context_length = 50` and three 30-character
chunks, the aggregated context is exactly the first chunk — the remaining
budget (20) does not exceed the 100-character truncation threshold, so no
truncated fragment of the second chunk and no ellipsis marker appears,
contrary to the claimed scenario. -/
theorem C6_counterexample :
    aggregate_context 50 [r30a, r30b, r30c] = List.replicate 30 'a'
    ∧ ('b' ∉ aggregate_context 50 [r30a, r30b, r30c])
    ∧ ('.' ∉ aggregate_context 50 [r30a, r30b, r30c]) := by
  refine ⟨by with_unfolding_all decide, by with_unfolding_all decide,
    by with_unfolding_all decide⟩

/-- C6 (amended): in the 50/30-30-30 scenario the context contains the
first chunk in full and nothing of the second or third (remaining budget
20 ≤ 100, so the overflowing chunk is excluded entirely); `chunk_count` in
the response and its metadata equals the number of search results (3), not
the number of context-included chunks (1). -/
theorem C6_scenario :
    (process_query id st6 s6 (fun _ => [1]) "q" 3 none).map
        (fun resp => (resp.context, resp.chunk_count, resp.metadata.chunk_count))
      = .ok (List.replicate 30 'a', 3, 3)
    ∧ (aggregateLoop 50 [r30a, r30b, r30c] 0).length = 1
    ∧ ¬ (100 < 50 - 30) := by
  refine ⟨by with_unfolding_all decide, by with_unfolding_all decide, by decide⟩

end Rag
